import Mathlib

/-!
Verification of the library server in `src/library.c`.

The server keeps two global in-memory tables — `users` (name, id) and
`books` (title, available) — each guarded by its own reader-writer lock.
A per-connection handler (`client_handler`) reads one request, tokenizes it
with `sscanf(buffer, "%49s %49s %49s", command, arg1, arg2)`, dispatches on
the command string, and answers one response line.  `main` runs an accept
loop with a 1-second poll timeout, gated by a signal-set `keep_running`
flag.

This file embeds the data model, the request handler, the tokenizer, the
lock-acquisition traces of the handler, and the accept loop, shallowly, and
proves the specification's claims about them.
-/

/-! ## Data model (library.c lines 17-31) -/

/-- `User` struct: `char name[50]; int id;`. -/
structure User where
  name : String
  id : Nat
deriving Repr, DecidableEq

/-- `Book` struct: `char title[50]; int available;` (1 = Yes, 0 = No). -/
structure Book where
  title : String
  available : Bool
deriving Repr, DecidableEq

/-- The two global tables: `users[MAX_USERS]` with `user_count`, and
`books[MAX_BOOKS]` with `book_count`.  Only the first `count` entries of
each C array are ever read, so each table is a list. -/
structure LibState where
  users : List User
  books : List Book
deriving Repr, DecidableEq

/-- `#define MAX_USERS 100` -/
def MAX_USERS : Nat := 100

/-- `#define MAX_BOOKS 100` -/
def MAX_BOOKS : Nat := 100

/-- `find_book_index` (library.c lines 38-43): first index whose title
matches, scanning from the front; `-1` (here `none`) if absent. -/
def find_book_index (title : String) : List Book → Option Nat
  | [] => none
  | b :: bs =>
    if b.title = title then some 0
    else (find_book_index title bs).map (· + 1)

/-- `find_user_by_name` (library.c lines 46-51): first index whose name
matches; `none` if absent. -/
def find_user_by_name (name : String) : List User → Option Nat
  | [] => none
  | u :: us =>
    if u.name = name then some 0
    else (find_user_by_name name us).map (· + 1)

/-- `books[idx].available = a` — mutate only the availability flag of the
book at `idx`, leaving every title and every other book unchanged. -/
def setAvail (bs : List Book) (idx : Nat) (a : Bool) : List Book :=
  bs.set idx { bs.getD idx ⟨"", false⟩ with available := a }

/-! ## The four catalog operations (library.c lines 112-179) -/

/-- Register branch (lines 112-131): under the Users write lock — capacity
check first, then duplicate check, else append with id `user_count + 1`. -/
def register (name : String) (st : LibState) : LibState × String :=
  if st.users.length ≥ MAX_USERS then
    (st, "failure (max users reached)")
  else if (find_user_by_name name st.users).isSome then
    (st, "failure (user already exists)")
  else
    let new_id := st.users.length + 1
    ({ st with users := st.users ++ [⟨name, new_id⟩] },
     "success " ++ toString new_id)

/-- Lend branch (lines 134-154): user-existence check under the Users read
lock, then — only if the user exists — availability check-and-set under the
Books write lock. -/
def lend (title username : String) (st : LibState) : LibState × String :=
  if (find_user_by_name username st.users).isNone then
    (st, "failure (user not found)")
  else
    match find_book_index title st.books with
    | some idx =>
      if (st.books.getD idx ⟨"", false⟩).available then
        ({ st with books := setAvail st.books idx false }, "success")
      else
        (st, "failure (book not available)")
    | none => (st, "failure (book not available)")

/-- Return branch (lines 157-166): under the Books write lock, set
`available = 1` if the title is found, else fail. -/
def returnBook (title : String) (st : LibState) : LibState × String :=
  match find_book_index title st.books with
  | some idx => ({ st with books := setAvail st.books idx true }, "success")
  | none => (st, "failure (book not found)")

/-- AddBook branch (lines 169-179): under the Books write lock, append if
under capacity, else fail. -/
def addBook (title : String) (st : LibState) : LibState × String :=
  if st.books.length < MAX_BOOKS then
    ({ st with books := st.books ++ [⟨title, true⟩] }, "success")
  else
    (st, "failure (library full)")

/-! ## Tokenization (library.c lines 101-105)

`sscanf(buffer, "%49s %49s %49s", command, arg1, arg2)`: each `%49s`
skips whitespace, then consumes at most 49 consecutive non-whitespace
characters; a longer run is left in the input and continues into the next
conversion.  `arg1` and `arg2` are `memset` to zero beforehand, so a
missing token leaves them as the empty string; `command` is NOT
initialized, so when zero tokens match it keeps whatever bytes were on
the stack — modelled as `none`, resolved by an arbitrary `garbage`
parameter in the handler. -/

/-- `isspace` for the characters `sscanf` treats as whitespace. -/
def isWsp (c : Char) : Bool :=
  c == ' ' || c == '\t' || c == '\n' || c == '\x0b' || c == '\x0c' || c == '\r'

/-- One `%49s` conversion: skip whitespace; at end of input report input
failure (`none`); else take at most 49 non-whitespace characters and leave
the rest (including any remainder of a longer run) unconsumed. -/
def scanToken (cs : List Char) : Option (List Char) × List Char :=
  let rest := cs.dropWhile isWsp
  match rest with
  | [] => (none, [])
  | _ =>
    let tok := (rest.takeWhile (fun c => !isWsp c)).take 49
    (some tok, rest.drop tok.length)

/-- The three conversions of `sscanf(buffer, "%49s %49s %49s", ...)`.
First component `none` means `command` was never written (zero tokens);
`arg1`/`arg2` default to `""` because they were zeroed by `memset`. -/
def sscanf3 (s : String) : Option String × String × String :=
  let r1 := scanToken s.data
  let r2 := scanToken r1.2
  let r3 := scanToken r2.2
  (r1.1.map List.asString, (r2.1.getD []).asString, (r3.1.getD []).asString)

/-! ## The request handler (library.c lines 86-191) -/

/-- `client_handler` logic after the socket read: tokenize, dispatch on an
exact match of the command string, else `failure (unknown command)`.
`garbage` stands for the indeterminate contents of the uninitialized
`command[50]` buffer, used only when `sscanf` matched zero tokens. -/
def handleRequest (garbage buffer : String) (st : LibState) :
    LibState × String :=
  let toks := sscanf3 buffer
  let command := toks.1.getD garbage
  let arg1 := toks.2.1
  let arg2 := toks.2.2
  if command = "Register" then register arg1 st
  else if command = "Lend" then lend arg1 arg2 st
  else if command = "Return" then returnBook arg1 st
  else if command = "AddBook" then addBook arg1 st
  else (st, "failure (unknown command)")

/-- Run a sequence of requests (each a `(garbage, buffer)` pair), threading
the state. -/
def runRequests (reqs : List (String × String)) (st : LibState) : LibState :=
  reqs.foldl (fun s r => (handleRequest r.1 r.2 s).1) st

/-! ## Lock-acquisition traces of the handler (library.c lines 112-182)

The handler's synchronization is embedded as the sequence of rwlock calls
each branch performs, in source order. -/

/-- The two global reader-writer locks: `user_lock` and `book_lock`. -/
inductive Table
  | usersT
  | booksT
deriving Repr, DecidableEq

/-- A rwlock call: `pthread_rwlock_rdlock`, `pthread_rwlock_wrlock`, or
`pthread_rwlock_unlock`. -/
inductive LockEv
  | acqRd (t : Table)
  | acqWr (t : Table)
  | rel (t : Table)
deriving Repr, DecidableEq

/-- Whether the thread holds lock `t` after performing the events `evs`. -/
def holdsTable (t : Table) (evs : List LockEv) : Bool :=
  evs.foldl
    (fun h e =>
      match e with
      | .acqRd t' => if t' = t then true else h
      | .acqWr t' => if t' = t then true else h
      | .rel t' => if t' = t then false else h)
    false

/-- The rwlock calls of the Lend branch (lines 136-153): rdlock/unlock on
`user_lock` for the existence check, then — only when the user exists —
wrlock/unlock on `book_lock` for the availability check-and-set. -/
def lendLockTrace (userExists : Bool) : List LockEv :=
  [.acqRd .usersT, .rel .usersT] ++
    (if userExists then [.acqWr .booksT, .rel .booksT] else [])

/-! ## Acceptor loop and shutdown flag (library.c lines 264-289)

One poll tick = one `accept` call with the 1-second `SO_RCVTIMEO` timeout.
`keep_running` is only cleared, never re-set, by `handle_sigterm`.  Each
tick records what `accept` returned and the value of `keep_running`
observed at the `if (!keep_running) break;` check right after it. -/

/-- What one `accept` call produced: a timeout / error (negative fd), or a
connection. -/
inductive AcceptOutcome
  | timeout
  | conn (c : Nat)
deriving Repr, DecidableEq

/-- One iteration of the accept loop: the `accept` outcome and the
`keep_running` value read immediately after `accept` returns. -/
structure Tick where
  outcome : AcceptOutcome
  flagAfter : Bool
deriving Repr, DecidableEq

/-- Connections handed to a handler by the loop of lines 264-289, given the
`keep_running` value at the loop guard and the sequence of ticks: the guard
exits when the flag is already clear; otherwise `accept` runs, the flag is
re-checked (`break` without spawning if clear), a timeout `continue`s, and
a connection spawns a detached handler thread. -/
def spawnedConns : Bool → List Tick → List Nat
  | false, _ => []
  | true, [] => []
  | true, t :: ts =>
    if t.flagAfter = false then []
    else
      match t.outcome with
      | .timeout => spawnedConns t.flagAfter ts
      | .conn c => c :: spawnedConns t.flagAfter ts

/-- Number of `accept` calls the loop performs before exiting. -/
def acceptCalls : Bool → List Tick → Nat
  | false, _ => 0
  | true, [] => 0
  | true, t :: ts =>
    1 + (if t.flagAfter = false then 0 else acceptCalls t.flagAfter ts)

/-- The connections among a list of ticks, in order. -/
def connsOf (ts : List Tick) : List Nat :=
  ts.filterMap (fun t =>
    match t.outcome with
    | .conn c => some c
    | .timeout => none)

/-! ## The spec's description of tokenization, for comparison (claim C6) -/

/-- Maximal runs of non-whitespace characters, in order. -/
def specWords (cs : List Char) : List (List Char) :=
  (cs.foldr
    (fun c acc =>
      if isWsp c then [] :: acc
      else
        match acc with
        | [] => [[c]]
        | w :: ws => (c :: w) :: ws)
    []).filter (fun w => w ≠ [])

/-- Modelled from the spec: "Tokenizes the received bytes by whitespace
into up to three bounded-length tokens: command, arg1, arg2.  Tokens
longer than the bound are truncated, not rejected." — whitespace-splitting
first, then truncation of each token to 49 characters. -/
def specTokenize3 (s : String) : Option String × String × String :=
  let ws := (specWords s.data).map (fun w => (w.take 49).asString)
  (ws[0]?, ws.getD 1 "", ws.getD 2 "")

/-- A request whose second whitespace-separated word starts after a
60-character first word: `"aaa...a b"`. -/
def longWordInput : String := (List.replicate 60 'a').asString ++ " b"

/-! ## Helper lemmas -/

theorem setAvail_nil (i : Nat) (a : Bool) : setAvail [] i a = [] := rfl

theorem setAvail_cons_zero (b : Book) (bs : List Book) (a : Bool) :
    setAvail (b :: bs) 0 a = { b with available := a } :: bs := rfl

theorem setAvail_cons_succ (b : Book) (bs : List Book) (i : Nat) (a : Bool) :
    setAvail (b :: bs) (i + 1) a = b :: setAvail bs i a := rfl

theorem setAvail_length (bs : List Book) (i : Nat) (a : Bool) :
    (setAvail bs i a).length = bs.length := by
  simp [setAvail]

theorem find_book_index_lt (t : String) (bs : List Book) (i : Nat)
    (h : find_book_index t bs = some i) : i < bs.length := by
  induction bs generalizing i with
  | nil => simp [find_book_index] at h
  | cons b bs ih =>
    rw [find_book_index] at h
    by_cases hb : b.title = t
    · rw [if_pos hb] at h
      cases h
      simp
    · rw [if_neg hb] at h
      rcases Option.map_eq_some'.mp h with ⟨j, hj, rfl⟩
      have := ih j hj
      simp
      omega

theorem find_book_index_setAvail (t : String) (bs : List Book) (i : Nat)
    (a : Bool) :
    find_book_index t (setAvail bs i a) = find_book_index t bs := by
  induction bs generalizing i with
  | nil => rw [setAvail_nil]
  | cons b bs ih =>
    cases i with
    | zero => rw [setAvail_cons_zero]; rw [find_book_index, find_book_index]
    | succ i =>
      rw [setAvail_cons_succ, find_book_index, find_book_index, ih]

theorem getD_setAvail_self (bs : List Book) (i : Nat) (a : Bool) (d : Book)
    (h : i < bs.length) :
    (setAvail bs i a).getD i d = { bs.getD i d with available := a } := by
  induction bs generalizing i with
  | nil => simp at h
  | cons b bs ih =>
    cases i with
    | zero => rw [setAvail_cons_zero]; rfl
    | succ i =>
      rw [setAvail_cons_succ]
      have h' : i < bs.length := by simpa using h
      simpa [List.getD] using ih i h'

theorem lend_users (t u : String) (st : LibState) :
    ((lend t u st).1).users = st.users := by
  rw [lend]
  split
  · rfl
  · split
    · split <;> rfl
    · rfl

theorem returnBook_users (t : String) (st : LibState) :
    ((returnBook t st).1).users = st.users := by
  rw [returnBook]
  split <;> rfl

theorem addBook_users (t : String) (st : LibState) :
    ((addBook t st).1).users = st.users := by
  rw [addBook]
  split <;> rfl

theorem lend_success (t u : String) (st : LibState) (bi : Nat)
    (hu : (find_user_by_name u st.users).isSome = true)
    (hb : find_book_index t st.books = some bi)
    (ha : (st.books.getD bi ⟨"", false⟩).available = true) :
    lend t u st = ({ st with books := setAvail st.books bi false }, "success") := by
  obtain ⟨j, hj⟩ := Option.isSome_iff_exists.mp hu
  simp [List.getD] at ha
  simp [lend, hj, hb, ha]

theorem lend_fail_unavailable (t u : String) (st : LibState) (bi : Nat)
    (hu : (find_user_by_name u st.users).isSome = true)
    (hb : find_book_index t st.books = some bi)
    (ha : (st.books.getD bi ⟨"", false⟩).available = false) :
    lend t u st = (st, "failure (book not available)") := by
  obtain ⟨j, hj⟩ := Option.isSome_iff_exists.mp hu
  simp [List.getD] at ha
  simp [lend, hj, hb, ha]

theorem returnBook_found (t : String) (st : LibState) (bi : Nat)
    (hb : find_book_index t st.books = some bi) :
    returnBook t st = ({ st with books := setAvail st.books bi true }, "success") := by
  simp [returnBook, hb]

theorem handleRequest_dispatch_register (g buf : String) (st : LibState)
    (h : (sscanf3 buf).1 = some "Register") :
    handleRequest g buf st = register (sscanf3 buf).2.1 st := by
  simp [handleRequest, h]

theorem handleRequest_dispatch_lend (g buf : String) (st : LibState)
    (h : (sscanf3 buf).1 = some "Lend") :
    handleRequest g buf st = lend (sscanf3 buf).2.1 (sscanf3 buf).2.2 st := by
  simp [handleRequest, h]

theorem handleRequest_dispatch_addBook (g buf : String) (st : LibState)
    (h : (sscanf3 buf).1 = some "AddBook") :
    handleRequest g buf st = addBook (sscanf3 buf).2.1 st := by
  simp [handleRequest, h]

theorem register_at_capacity (name : String) (st : LibState)
    (h : MAX_USERS ≤ st.users.length) :
    register name st = (st, "failure (max users reached)") := by
  rw [register, if_pos h]

theorem register_duplicate (name : String) (st : LibState)
    (hc : st.users.length < MAX_USERS)
    (hd : (find_user_by_name name st.users).isSome = true) :
    register name st = (st, "failure (user already exists)") := by
  rw [register, if_neg (by omega), if_pos hd]

theorem register_fresh (name : String) (st : LibState)
    (hc : st.users.length < MAX_USERS)
    (hd : find_user_by_name name st.users = none) :
    register name st =
      ({ st with users := st.users ++ [⟨name, st.users.length + 1⟩] },
       "success " ++ toString (st.users.length + 1)) := by
  rw [register, if_neg (by omega), if_neg (by simp [hd])]

/-- The ids stored in the Users table, in insertion order. -/
def usersIds (us : List User) : List Nat := us.map User.id

theorem handleRequest_users_step (g b : String) (st : LibState) :
    ((handleRequest g b st).1).users = st.users ∨
    ∃ nm, ((handleRequest g b st).1).users =
      st.users ++ [⟨nm, st.users.length + 1⟩] := by
  rw [handleRequest]
  split
  · rw [register]
    split
    · left; rfl
    · split
      · left; rfl
      · right; exact ⟨_, rfl⟩
  · split
    · left; exact lend_users _ _ _
    · split
      · left; exact returnBook_users _ _
      · split
        · left; exact addBook_users _ _
        · left; rfl

theorem usersIds_step (g b : String) (st : LibState)
    (h : usersIds st.users = List.range' 1 st.users.length) :
    usersIds ((handleRequest g b st).1).users =
      List.range' 1 ((handleRequest g b st).1).users.length := by
  rcases handleRequest_users_step g b st with heq | ⟨nm, heq⟩
  · rw [heq, h]
  · rw [heq]
    unfold usersIds at h ⊢
    simp [h, List.range'_concat]
    omega

theorem runRequests_nil (st : LibState) : runRequests [] st = st := rfl

theorem runRequests_cons (r : String × String) (reqs : List (String × String))
    (st : LibState) :
    runRequests (r :: reqs) st = runRequests reqs (handleRequest r.1 r.2 st).1 :=
  rfl

theorem runRequests_append (reqs more : List (String × String)) (st : LibState) :
    runRequests (reqs ++ more) st = runRequests more (runRequests reqs st) := by
  unfold runRequests
  exact List.foldl_append _ _ _ _

theorem runRequests_ids (reqs : List (String × String)) (st : LibState)
    (h : usersIds st.users = List.range' 1 st.users.length) :
    usersIds (runRequests reqs st).users =
      List.range' 1 (runRequests reqs st).users.length := by
  induction reqs generalizing st with
  | nil => exact h
  | cons r reqs ih =>
    rw [runRequests_cons]
    exact ih _ (usersIds_step r.1 r.2 st h)

theorem runRequests_users_prefix (reqs : List (String × String)) (st : LibState) :
    st.users <+: (runRequests reqs st).users := by
  induction reqs generalizing st with
  | nil => exact List.prefix_refl _
  | cons r reqs ih =>
    rw [runRequests_cons]
    refine List.IsPrefix.trans ?_ (ih _)
    rcases handleRequest_users_step r.1 r.2 st with heq | ⟨nm, heq⟩
    · rw [heq]
    · rw [heq]; exact List.prefix_append _ _

theorem scanToken_token_spec (cs : List Char) (t : List Char)
    (h : (scanToken cs).1 = some t) :
    t.length ≤ 49 ∧ t.all (fun c => !isWsp c) = true := by
  simp only [scanToken] at h
  rcases hd : cs.dropWhile isWsp with _ | ⟨c, rest⟩ <;> rw [hd] at h
  · simp at h
  · simp only [Option.some.injEq] at h
    subst h
    constructor
    · simp
    · rw [List.all_eq_true]
      intro x hx
      have hx' : x ∈ (c :: rest).takeWhile (fun c => !isWsp c) :=
        List.mem_of_mem_take hx
      have hp := List.mem_takeWhile_imp (p := fun c => !isWsp c) hx'
      simpa using hp

theorem scanToken_getD_spec (cs : List Char) :
    ((scanToken cs).1.getD []).length ≤ 49 ∧
    ((scanToken cs).1.getD []).all (fun c => !isWsp c) = true := by
  rcases h : (scanToken cs).1 with _ | t
  · simp
  · simpa using scanToken_token_spec cs t h

/-- The state threads through `lendMany`: the lock on `book_lock`
serializes N concurrent Lend requests into some order; this runs them in
that order. -/
def lendMany (title : String) (usernames : List String) (st : LibState) :
    List String :=
  match usernames with
  | [] => []
  | u :: us =>
    let r := lend title u st
    r.2 :: lendMany title us r.1

theorem lendMany_all_fail (title : String) (us : List String) (st : LibState)
    (bi : Nat)
    (hreg : ∀ u ∈ us, (find_user_by_name u st.users).isSome = true)
    (hb : find_book_index title st.books = some bi)
    (ha : (st.books.getD bi ⟨"", false⟩).available = false) :
    lendMany title us st =
      List.replicate us.length "failure (book not available)" := by
  induction us with
  | nil => rfl
  | cons u us ih =>
    rw [lendMany]
    have hfail := lend_fail_unavailable title u st bi
      (hreg u (by simp)) hb ha
    rw [hfail]
    simp only [List.length_cons, List.replicate_succ, List.cons.injEq]
    exact ⟨trivial, ih (fun v hv => hreg v (by simp [hv]))⟩

/-! ## Claim theorems -/

/-- C1: During the handling of any Lend request the Users lock and the
Books lock are never held simultaneously — after any prefix of the Lend
branch's lock events (for either result of the user-existence check), it
is never the case that both tables' locks are held: the Users read lock is
fully released before the Books write lock is acquired, and the two
acquisitions are never nested. -/
theorem lend_locks_never_nested (ue : Bool) (n : Nat) :
    (holdsTable .usersT ((lendLockTrace ue).take n) &&
      holdsTable .booksT ((lendLockTrace ue).take n)) = false := by
  rcases n with _ | _ | _ | _ | n
  · cases ue <;> decide
  · cases ue <;> decide
  · cases ue <;> decide
  · cases ue <;> decide
  · cases ue <;>
      rw [List.take_of_length_le (by simp [lendLockTrace])] <;> decide

/-- C2: For every Register request (a request whose first token is
`Register`), exactly one of three outcomes occurs, in this order: at
capacity the response is `failure (max users reached)` and the state is
unchanged; else a duplicate name answers `failure (user already exists)`
with the state unchanged; else a new User with the next sequential id is
appended and the response is `success <id>`. -/
theorem register_request_trichotomy (g buf : String) (st : LibState)
    (hc : (sscanf3 buf).1 = some "Register") :
    (MAX_USERS ≤ st.users.length →
      handleRequest g buf st = (st, "failure (max users reached)")) ∧
    (st.users.length < MAX_USERS →
      (find_user_by_name (sscanf3 buf).2.1 st.users).isSome = true →
      handleRequest g buf st = (st, "failure (user already exists)")) ∧
    (st.users.length < MAX_USERS →
      find_user_by_name (sscanf3 buf).2.1 st.users = none →
      handleRequest g buf st =
        ({ st with
            users := st.users ++ [⟨(sscanf3 buf).2.1, st.users.length + 1⟩] },
         "success " ++ toString (st.users.length + 1))) := by
  rw [handleRequest_dispatch_register g buf st hc]
  exact ⟨register_at_capacity _ st,
         fun h1 h2 => register_duplicate _ st h1 h2,
         fun h1 h2 => register_fresh _ st h1 h2⟩

theorem register_request_trichotomy_witness :
    handleRequest "g" "Register alice" ⟨[], []⟩ =
      (⟨[⟨"alice", 1⟩], []⟩, "success 1") := by
  have h := (register_request_trichotomy "g" "Register alice" ⟨[], []⟩
    (by decide)).2.2 (by decide) (by decide)
  rw [h]
  decide

/-- C3: From a state where the user is registered and the title's first
matching book is available: Lend succeeds and makes the book unavailable;
an immediate second Lend of the title answers
`failure (book not available)` and changes nothing; Return of the title
succeeds and restores availability, so a later Lend succeeds again; and
Return of any title not in the Books table answers
`failure (book not found)` with the state unchanged. -/
theorem lend_return_cycle (title user : String) (st : LibState) (bi : Nat)
    (hu : (find_user_by_name user st.users).isSome = true)
    (hb : find_book_index title st.books = some bi)
    (ha : (st.books.getD bi ⟨"", false⟩).available = true) :
    ∃ st1 st2,
      lend title user st = (st1, "success") ∧
      (st1.books.getD bi ⟨"", false⟩).available = false ∧
      lend title user st1 = (st1, "failure (book not available)") ∧
      returnBook title st1 = (st2, "success") ∧
      (st2.books.getD bi ⟨"", false⟩).available = true ∧
      (lend title user st2).2 = "success" ∧
      ∀ t, find_book_index t st.books = none →
        returnBook t st = (st, "failure (book not found)") := by
  have hlt := find_book_index_lt title st.books bi hb
  have hlt1 : bi < (setAvail st.books bi false).length := by
    rw [setAvail_length]; exact hlt
  refine ⟨{ st with books := setAvail st.books bi false },
          { st with books := setAvail (setAvail st.books bi false) bi true },
          lend_success title user st bi hu hb ha, ?_, ?_, ?_, ?_, ?_, ?_⟩
  · rw [getD_setAvail_self _ _ _ _ hlt]
  · exact lend_fail_unavailable title user _ bi hu
      (by rw [find_book_index_setAvail]; exact hb)
      (by rw [getD_setAvail_self _ _ _ _ hlt])
  · exact returnBook_found title _ bi
      (by rw [find_book_index_setAvail]; exact hb)
  · rw [getD_setAvail_self _ _ _ _ hlt1]
  · rw [lend_success title user
        ⟨st.users, setAvail (setAvail st.books bi false) bi true⟩ bi hu
        (by show find_book_index title
              (setAvail (setAvail st.books bi false) bi true) = some bi
            rw [find_book_index_setAvail, find_book_index_setAvail]
            exact hb)
        (by show ((setAvail (setAvail st.books bi false) bi true).getD bi
              ⟨"", false⟩).available = true
            rw [getD_setAvail_self _ _ _ _ hlt1])]
  · intro t ht
    simp [returnBook, ht]

theorem lend_return_cycle_witness :
    ∃ st1 st2,
      lend "HP" "alice" ⟨[⟨"alice", 1⟩], [⟨"HP", true⟩]⟩ = (st1, "success") ∧
      (st1.books.getD 0 ⟨"", false⟩).available = false ∧
      lend "HP" "alice" st1 = (st1, "failure (book not available)") ∧
      returnBook "HP" st1 = (st2, "success") ∧
      (st2.books.getD 0 ⟨"", false⟩).available = true ∧
      (lend "HP" "alice" st2).2 = "success" ∧
      ∀ t, find_book_index t [⟨"HP", true⟩] = none →
        returnBook t ⟨[⟨"alice", 1⟩], [⟨"HP", true⟩]⟩ =
          (⟨[⟨"alice", 1⟩], [⟨"HP", true⟩]⟩, "failure (book not found)") :=
  lend_return_cycle "HP" "alice" ⟨[⟨"alice", 1⟩], [⟨"HP", true⟩]⟩ 0
    (by decide) (by decide) (by decide)

/-- C4: Starting from any initial state with no users, across any sequence
of requests the ids stored for the registered users are exactly
1, 2, 3, ... in registration order — so ids assigned by successful
Register operations increase by exactly 1 starting at 1 — and the Users
table after a run is a prefix of the table after any continuation, so an
assigned id is never reassigned, whatever failed requests intervene. -/
theorem register_ids_sequential (reqs more : List (String × String))
    (bs : List Book) :
    usersIds (runRequests reqs ⟨[], bs⟩).users =
      List.range' 1 (runRequests reqs ⟨[], bs⟩).users.length ∧
    (runRequests reqs ⟨[], bs⟩).users <+:
      (runRequests (reqs ++ more) ⟨[], bs⟩).users := by
  constructor
  · exact runRequests_ids reqs _ (by simp [usersIds])
  · rw [runRequests_append]
    exact runRequests_users_prefix more _

/-- C5: A Lend request naming an unregistered user answers exactly
`failure (user not found)` and leaves the whole state — the Books table
included — unchanged. -/
theorem lend_unknown_user_frame (g buf : String) (st : LibState)
    (hc : (sscanf3 buf).1 = some "Lend")
    (hu : find_user_by_name (sscanf3 buf).2.2 st.users = none) :
    handleRequest g buf st = (st, "failure (user not found)") := by
  rw [handleRequest_dispatch_lend g buf st hc, lend, if_pos (by simp [hu])]

theorem lend_unknown_user_frame_witness :
    handleRequest "g" "Lend Harry_Potter bob"
        ⟨[⟨"alice", 1⟩], [⟨"Harry_Potter", true⟩]⟩ =
      (⟨[⟨"alice", 1⟩], [⟨"Harry_Potter", true⟩]⟩,
       "failure (user not found)") :=
  lend_unknown_user_frame "g" "Lend Harry_Potter bob"
    ⟨[⟨"alice", 1⟩], [⟨"Harry_Potter", true⟩]⟩ (by decide) (by decide)

/-- C6 counterexample: on a request whose first word has 60 characters,
whitespace-tokenization-plus-truncation would make `arg1` the second
whitespace-separated word `"b"`, but the code's `%49s` conversions leave
the word's remaining 11 characters in the input, so `arg1` is `"aaaaaaaaaaa"`
— the excess of the first word, not the next whitespace token. -/
theorem tokenize_spillover :
    (specTokenize3 longWordInput).2.1 = "b" ∧
    (sscanf3 longWordInput).2.1 = (List.replicate 11 'a').asString ∧
    ((sscanf3 longWordInput).2.1 == (specTokenize3 longWordInput).2.1) =
      false := by
  decide

/-- C6 (amended): each of the three tokens read by the handler's `sscanf`
holds at most 49 characters and no whitespace character — but a word
longer than 49 characters is split, its first 49 characters forming one
token and its remainder continuing into the next token, rather than the
input being cut purely at whitespace; the request is processed either
way. -/
theorem sscanf3_tokens_bounded (s : String) :
    ((sscanf3 s).1.getD "").length ≤ 49 ∧
    (sscanf3 s).2.1.length ≤ 49 ∧
    (sscanf3 s).2.2.length ≤ 49 ∧
    ((sscanf3 s).1.getD "").data.all (fun c => !isWsp c) = true ∧
    (sscanf3 s).2.1.data.all (fun c => !isWsp c) = true ∧
    (sscanf3 s).2.2.data.all (fun c => !isWsp c) = true := by
  obtain ⟨h2l, h2a⟩ := scanToken_getD_spec (scanToken s.data).2
  obtain ⟨h3l, h3a⟩ := scanToken_getD_spec (scanToken (scanToken s.data).2).2
  have hs1 : (sscanf3 s).1 = ((scanToken s.data).1).map List.asString := rfl
  refine ⟨?_, h2l, h3l, ?_, h2a, h3a⟩
  · rcases ho : (scanToken s.data).1 with _ | t
    · rw [hs1, ho]; simp
    · rw [hs1, ho]
      have := (scanToken_token_spec s.data t ho).1
      simpa using this
  · rcases ho : (scanToken s.data).1 with _ | t
    · rw [hs1, ho]; simp
    · rw [hs1, ho]
      have := (scanToken_token_spec s.data t ho).2
      simpa using this

/-- C7: `command[50]` is NOT zeroed before `sscanf` (only `arg1` and
`arg2` are `memset`), so a request in which `sscanf` matches zero tokens —
the empty or whitespace-only request — leaves `command` holding
indeterminate stack bytes, and `strcmp(command, ...)` reads them: the
dispatch outcome depends on that garbage.  If the leftover bytes spell
`Register`, the empty request registers a user and mutates state; only
for leftover bytes matching no command is the answer
`failure (unknown command)`.  The claim's "well-defined for every input
byte string" fails for zero-token requests. -/
theorem empty_request_reads_uninitialized_command :
    (sscanf3 "").1 = none ∧
    handleRequest "Register" "" ⟨[], []⟩ = (⟨[⟨"", 1⟩], []⟩, "success 1") ∧
    handleRequest "unrecognized" "" ⟨[], []⟩ =
      (⟨[], []⟩, "failure (unknown command)") := by
  decide

/-- C8: If the shutdown flag is observed still-set at the post-`accept`
check of every tick before tick `k` and observed cleared at tick `k` (the
flag was set during tick `k`'s bounded `accept` wait), then the loop
performs exactly `k + 1` `accept` calls — it exits within one poll-timeout
interval of the flag being set — and the connections handed to handlers
are exactly those accepted in ticks before `k`: no connection accepted at
or after the poll boundary at which the flag is seen is handed to a
Connection Handler. -/
theorem shutdown_within_one_tick (ts : List Tick) (k : Nat)
    (hk : k < ts.length)
    (hbefore : ∀ j, j < k → (ts.getD j ⟨.timeout, false⟩).flagAfter = true)
    (hat : (ts.getD k ⟨.timeout, false⟩).flagAfter = false) :
    spawnedConns true ts = connsOf (ts.take k) ∧
    acceptCalls true ts = k + 1 := by
  induction ts generalizing k with
  | nil => simp at hk
  | cons t ts ih =>
    cases k with
    | zero =>
      have h0 : t.flagAfter = false := hat
      rw [spawnedConns, acceptCalls, h0]
      simp [connsOf]
    | succ k =>
      have h0 : t.flagAfter = true := hbefore 0 (Nat.succ_pos k)
      have hk' : k < ts.length := by simpa using hk
      have hbefore' : ∀ j, j < k →
          (ts.getD j ⟨.timeout, false⟩).flagAfter = true :=
        fun j hj => hbefore (j + 1) (by omega)
      have hat' : (ts.getD k ⟨.timeout, false⟩).flagAfter = false := hat
      obtain ⟨ihs, ihc⟩ := ih k hk' hbefore' hat'
      rw [spawnedConns, acceptCalls, h0]
      constructor
      · rcases ho : t.outcome with _ | c <;>
          simp [ho, List.take_succ_cons, connsOf, ihs]
      · simp [ihc]
        omega

theorem shutdown_within_one_tick_witness :
    spawnedConns true
        [⟨.conn 5, true⟩, ⟨.timeout, true⟩, ⟨.conn 7, false⟩] = [5] ∧
    acceptCalls true
        [⟨.conn 5, true⟩, ⟨.timeout, true⟩, ⟨.conn 7, false⟩] = 3 := by
  have h := shutdown_within_one_tick
    [⟨.conn 5, true⟩, ⟨.timeout, true⟩, ⟨.conn 7, false⟩] 2
    (by decide)
    (fun j hj => by interval_cases j <;> rfl)
    (by rfl)
  exact ⟨by rw [h.1]; rfl, h.2⟩

/-- C9: When N ≥ 1 handler threads concurrently Lend the same title, each
for a registered user, the Books write lock serializes their
check-and-set critical sections into some order; run in that order
(`lendMany`), the first request answers `success` and the remaining N − 1
answer `failure (book not available)` — exactly one success, whatever the
serialization order. -/
theorem lend_race_one_success (title : String) (us : List String)
    (st : LibState) (bi : Nat)
    (hne : us ≠ [])
    (hreg : ∀ u ∈ us, (find_user_by_name u st.users).isSome = true)
    (hb : find_book_index title st.books = some bi)
    (ha : (st.books.getD bi ⟨"", false⟩).available = true) :
    lendMany title us st =
      "success" ::
        List.replicate (us.length - 1) "failure (book not available)" := by
  rcases us with _ | ⟨u, us⟩
  · exact absurd rfl hne
  · rw [lendMany, lend_success title u st bi (hreg u (by simp)) hb ha]
    have hlt := find_book_index_lt title st.books bi hb
    have hfail := lendMany_all_fail title us
      { st with books := setAvail st.books bi false } bi
      (fun v hv => hreg v (by simp [hv]))
      (by show find_book_index title (setAvail st.books bi false) = some bi
          rw [find_book_index_setAvail]; exact hb)
      (by show ((setAvail st.books bi false).getD bi ⟨"", false⟩).available
            = false
          rw [getD_setAvail_self _ _ _ _ hlt])
    simpa using hfail

theorem lend_race_one_success_witness :
    lendMany "HP" ["alice", "bob"]
        ⟨[⟨"alice", 1⟩, ⟨"bob", 2⟩], [⟨"HP", true⟩]⟩ =
      "success" :: List.replicate 1 "failure (book not available)" := by
  have h := lend_race_one_success "HP" ["alice", "bob"]
    ⟨[⟨"alice", 1⟩, ⟨"bob", 2⟩], [⟨"HP", true⟩]⟩ 0
    (by decide) (by decide) (by decide) (by decide)
  simpa using h

/-- C10: Missing arguments are the empty string, not a rejection: because
`arg1`/`arg2` are zeroed before `sscanf`, the bare request `Register`
(below capacity, no empty-named user present) appends a user whose name
is `""` and answers `success <id>`, and the bare request `AddBook` (below
capacity) appends a book whose title is `""` and answers `success`. -/
theorem bare_command_empty_args (g : String) (st : LibState)
    (hcap : st.users.length < MAX_USERS)
    (hname : find_user_by_name "" st.users = none)
    (hbcap : st.books.length < MAX_BOOKS) :
    handleRequest g "Register" st =
      ({ st with users := st.users ++ [⟨"", st.users.length + 1⟩] },
       "success " ++ toString (st.users.length + 1)) ∧
    handleRequest g "AddBook" st =
      ({ st with books := st.books ++ [⟨"", true⟩] }, "success") := by
  constructor
  · rw [handleRequest_dispatch_register g "Register" st (by decide)]
    exact register_fresh _ st hcap hname
  · rw [handleRequest_dispatch_addBook g "AddBook" st (by decide)]
    have harg : (sscanf3 "AddBook").2.1 = "" := by decide
    rw [harg, addBook, if_pos hbcap]

theorem bare_command_empty_args_witness :
    handleRequest "g" "Register" ⟨[], []⟩ =
      (⟨[⟨"", 1⟩], []⟩, "success 1") ∧
    handleRequest "g" "AddBook" ⟨[], []⟩ =
      (⟨[], [⟨"", true⟩]⟩, "success") := by
  have h := bare_command_empty_args "g" ⟨[], []⟩
    (by decide) (by decide) (by decide)
  exact ⟨by rw [h.1]; decide, by rw [h.2]; decide⟩
